import Mathlib

/-!
Shallow embedding of the devconnecter REST API handlers
(src/routes/api/posts.js and the profile router) and proofs of the
spec claims about them.

Modelling conventions:
- Document ids and user ids are natural numbers.
- A store collection is a Lean list of documents; findById and findOne
  are List.find? on the relevant key; a mongoose document save writes
  the document back into the list at its key (savePost, saveProfile);
  deleteMany is List.filter; findOneAndRemove is List.eraseP.
- Request body fields that may be absent are Option String; the
  express-validator check body(f).not().isEmpty() fails when the field
  is absent or the empty string (fieldMissing).
- Each handler returns Except ApiError on its result type; the error
  constructors follow the taxonomy of the spec (ValidationError 400,
  NotFound 400/404, Forbidden 401, Conflict 400, UnexpectedError 500).
- A handler that in JavaScript dereferences null (for example
  post.comments.unshift when findById returned null) throws, is caught
  by the catch block, and answers 500: embedded as UnexpectedError.
-/

namespace DevConnector

abbrev UserId := Nat

/-- A user record, as read back by User.findById (password dropped). -/
structure User where
  id : UserId
  name : String
  avatar : String
deriving Repr, DecidableEq

/-- One entry of post.likes; the source pushes objects of shape
\x7b user: req.user.id \x7d. -/
structure Like where
  user : UserId
deriving Repr, DecidableEq

/-- One entry of post.comments. -/
structure Comment where
  id : Nat
  user : UserId
  text : String
  name : String
  avatar : String
deriving Repr, DecidableEq

/-- A Post document. -/
structure Post where
  id : Nat
  user : UserId
  text : String
  name : String
  avatar : String
  likes : List Like
  comments : List Comment
deriving Repr, DecidableEq

/-- One entry of profile.experience. fromDate embeds the source field
named from, toDate the field named to. Fields are Option because the
route copies possibly absent body fields straight into the new entry. -/
structure Experience where
  id : Nat
  title : Option String
  company : Option String
  location : Option String
  fromDate : Option String
  toDate : Option String
  current : Option Bool
  description : Option String
deriving Repr, DecidableEq

/-- One entry of profile.education. -/
structure Education where
  id : Nat
  school : Option String
  degree : Option String
  fieldofstudy : Option String
  fromDate : Option String
  toDate : Option String
  current : Option Bool
  description : Option String
deriving Repr, DecidableEq

/-- A Profile document (the fields the claims touch). -/
structure Profile where
  user : UserId
  status : String
  skills : List String
  website : String
  experience : List Experience
  education : List Education
deriving Repr, DecidableEq

/-- The error taxonomy of the spec (section 7). -/
inductive ApiError where
  | ValidationError
  | NotFound
  | Forbidden
  | Conflict
  | UnexpectedError
  | Unauthorized
deriving Repr, DecidableEq

/-- body(field).not().isEmpty() fails when the field is absent or empty. -/
def fieldMissing : Option String → Bool
  | none => true
  | some s => s == ""

/-- Writing a mongoose Post document back: the document in the list
with the same id is replaced. -/
def savePost (posts : List Post) (p : Post) : List Post :=
  posts.map (fun q => if q.id = p.id then p else q)

/-- Writing a mongoose Profile document back, keyed by its user. -/
def saveProfile (profiles : List Profile) (pr : Profile) : List Profile :=
  profiles.map (fun q => if q.user = pr.user then pr else q)

/-! ### Handlers of src/routes/api/posts.js -/

/-- PUT api/posts/like/:postId (src/routes/api/posts.js lines 106-132).
Returns the new store and the likes array sent in the response. -/
def likePost (posts : List Post) (callerId : UserId) (postId : Nat) :
    Except ApiError (List Post × List Like) :=
  match posts.find? (fun p => p.id = postId) with
  | none => .error .NotFound
  | some post =>
    if post.likes.any (fun l => l.user = callerId) then
      .error .Conflict
    else
      let post' := { post with likes := ⟨callerId⟩ :: post.likes }
      .ok (savePost posts post', post'.likes)

/-- PUT api/posts/unlike/:postId (src/routes/api/posts.js lines 137-165). -/
def unlikePost (posts : List Post) (callerId : UserId) (postId : Nat) :
    Except ApiError (List Post × List Like) :=
  match posts.find? (fun p => p.id = postId) with
  | none => .error .NotFound
  | some post =>
    if post.likes.any (fun l => l.user = callerId) then
      let post' := { post with
        likes := post.likes.filter (fun l => l.user ≠ callerId) }
      .ok (savePost posts post', post'.likes)
    else
      .error .Conflict

/-- DELETE api/posts/:postId (src/routes/api/posts.js lines 78-101).
post.remove() deletes the found document; on success the new store is
returned. -/
def deletePost (posts : List Post) (callerId : UserId) (postId : Nat) :
    Except ApiError (List Post) :=
  match posts.find? (fun p => p.id = postId) with
  | none => .error .NotFound
  | some post =>
    if post.user ≠ callerId then
      .error .Forbidden
    else
      .ok (posts.filter (fun p => p.id ≠ post.id))

/-- DELETE api/posts/comment/:postId/:commentId
(src/routes/api/posts.js lines 206-235). The handler reads
post.comments without a null check, so an absent post throws and is
answered 500 (UnexpectedError). -/
def deleteComment (posts : List Post) (callerId : UserId)
    (postId commentId : Nat) :
    Except ApiError (List Post × List Comment) :=
  match posts.find? (fun p => p.id = postId) with
  | none => .error .UnexpectedError
  | some post =>
    match post.comments.find? (fun cm => cm.id = commentId) with
    | none => .error .NotFound
    | some comment =>
      if comment.user ≠ callerId then
        .error .Forbidden
      else
        let post' := { post with
          comments := post.comments.filter (fun cm => cm.id ≠ commentId) }
        .ok (savePost posts post', post'.comments)

/-- POST api/posts/comment/:postId (src/routes/api/posts.js lines
170-201). freshId is the id mongoose assigns to the new subdocument.
The handler checks neither that the caller row nor that the post
exists: a null from either findById throws (user.name, respectively
post.comments.unshift) and is answered 500. The pair returned is
(response, store after the handler). -/
def addComment (users : List User) (posts : List Post) (callerId : UserId)
    (postId : Nat) (text : Option String) (freshId : Nat) :
    Except ApiError (List Comment) × List Post :=
  if fieldMissing text then
    (.error .ValidationError, posts)
  else
    match users.find? (fun u => u.id = callerId) with
    | none => (.error .UnexpectedError, posts)
    | some user =>
      match posts.find? (fun p => p.id = postId) with
      | none => (.error .UnexpectedError, posts)
      | some post =>
        let newComment : Comment :=
          ⟨freshId, callerId, text.getD "", user.name, user.avatar⟩
        let post' := { post with comments := newComment :: post.comments }
        (.ok post'.comments, savePost posts post')

/-! ### Handlers of the profile router (src/unnamed/part_001) -/

/-- Request body of PUT api/profile/experience. -/
structure ExpBody where
  title : Option String
  company : Option String
  location : Option String
  fromDate : Option String
  toDate : Option String
  current : Option Bool
  description : Option String
deriving Repr, DecidableEq

/-- Request body of PUT api/profile/education. -/
structure EduBody where
  school : Option String
  degree : Option String
  fieldofstudy : Option String
  fromDate : Option String
  toDate : Option String
  current : Option Bool
  description : Option String
deriving Repr, DecidableEq

/-- The experience route validates title, company, from. -/
def expBodyInvalid (b : ExpBody) : Bool :=
  fieldMissing b.title || fieldMissing b.company || fieldMissing b.fromDate

/-- The education route validates school, degree, fieldofstudy, from. -/
def eduBodyInvalid (b : EduBody) : Bool :=
  fieldMissing b.school || fieldMissing b.degree ||
    fieldMissing b.fieldofstudy || fieldMissing b.fromDate

/-- The newExp object built from the destructured body. -/
def mkExperience (b : ExpBody) (freshId : Nat) : Experience :=
  ⟨freshId, b.title, b.company, b.location, b.fromDate, b.toDate,
    b.current, b.description⟩

/-- The newEdu object built from the destructured body. -/
def mkEducation (b : EduBody) (freshId : Nat) : Education :=
  ⟨freshId, b.school, b.degree, b.fieldofstudy, b.fromDate, b.toDate,
    b.current, b.description⟩

/-- PUT api/profile/experience (src/unnamed/part_001 lines 164-211).
On a validation error the handler answers 400 and RETURNS, so the store
is untouched. An absent profile makes profile.experience throw (500).
The pair returned is (response, store after the handler). -/
def addExperience (profiles : List Profile) (callerId : UserId)
    (b : ExpBody) (freshId : Nat) :
    Except ApiError Profile × List Profile :=
  if expBodyInvalid b then
    (.error .ValidationError, profiles)
  else
    match profiles.find? (fun p => p.user = callerId) with
    | none => (.error .UnexpectedError, profiles)
    | some pr =>
      let pr' := { pr with
        experience := mkExperience b freshId :: pr.experience }
      (.ok pr', saveProfile profiles pr')

/-- PUT api/profile/education (src/unnamed/part_001 lines 237-285).
Unlike the experience route, the validation-error branch sends the 400
response WITHOUT returning (line 251), so the handler keeps running:
it still unshifts the new entry and saves the profile. The response
field records the first response written (the 400 when invalid); the
store field records the state after the handler finished. The save is
modelled from the spec contract of the document store (section 6:
find/upsert/delete, no schema validation), the mongoose model file not
being part of the reviewed sources. -/
def addEducation (profiles : List Profile) (callerId : UserId)
    (b : EduBody) (freshId : Nat) :
    Except ApiError Profile × List Profile :=
  let invalid := eduBodyInvalid b
  match profiles.find? (fun p => p.user = callerId) with
  | none =>
    (if invalid then .error .ValidationError else .error .UnexpectedError,
      profiles)
  | some pr =>
    let pr' := { pr with
      education := mkEducation b freshId :: pr.education }
    (if invalid then .error .ValidationError else .ok pr',
      saveProfile profiles pr')

/-- DELETE api/profile/experience/:expId (src/unnamed/part_001 lines
216-232). Entries whose id differs from the parameter are kept. -/
def removeExperience (profiles : List Profile) (callerId : UserId)
    (expId : Nat) : Except ApiError (List Profile × Profile) :=
  match profiles.find? (fun p => p.user = callerId) with
  | none => .error .UnexpectedError
  | some pr =>
    let pr' := { pr with
      experience := pr.experience.filter (fun e => e.id ≠ expId) }
    .ok (saveProfile profiles pr', pr')

/-- GET api/profile/user/:userId (src/unnamed/part_001 lines 121-139).
Both the no-document case and the malformed-id case answer the same
400 message, embedded as NotFound. -/
def getProfileByUser (profiles : List Profile) (userId : UserId) :
    Except ApiError Profile :=
  match profiles.find? (fun p => p.user = userId) with
  | none => .error .NotFound
  | some pr => .ok pr

/-- The three stores touched by the profile-deletion cascade. -/
structure DB where
  users : List User
  profiles : List Profile
  posts : List Post
deriving Repr, DecidableEq

/-- Post.deleteMany with filter user = callerId. -/
def deletePostsOf (callerId : UserId) (posts : List Post) : List Post :=
  posts.filter (fun p => p.user ≠ callerId)

/-- Profile.findOneAndRemove with filter user = callerId. -/
def removeProfileOf (callerId : UserId) (profiles : List Profile) :
    List Profile :=
  profiles.eraseP (fun p => p.user = callerId)

/-- User.findOneAndRemove with filter id = callerId. -/
def removeUserById (callerId : UserId) (users : List User) : List User :=
  users.eraseP (fun u => u.id = callerId)

/-- DELETE api/profile (src/unnamed/part_001 lines 144-159): deletes
the posts of the caller, then the profile, then the user record, in
that order. -/
def deleteMyProfile (db : DB) (callerId : UserId) : DB :=
  let db1 := { db with posts := deletePostsOf callerId db.posts }
  let db2 := { db1 with profiles := removeProfileOf callerId db1.profiles }
  { db2 with users := removeUserById callerId db2.users }

/-- The skills field of the request body of POST api/profile: either a
JSON array or a comma-delimited string. -/
inductive SkillsInput where
  | str : String → SkillsInput
  | arr : List String → SkillsInput
deriving Repr, DecidableEq

/-- JavaScript String.split with separator comma, over the character
list of the string: every comma is a cut point, and n commas give
n + 1 pieces. -/
def splitCommaChars : List Char → List (List Char)
  | [] => [[]]
  | c :: rest =>
    if c = ',' then
      [] :: splitCommaChars rest
    else
      match splitCommaChars rest with
      | [] => [[c]]
      | h :: t => (c :: h) :: t

/-- JavaScript String.trim: drop whitespace from both ends. -/
def trimChars (l : List Char) : List Char :=
  ((l.dropWhile Char.isWhitespace).reverse.dropWhile Char.isWhitespace).reverse

/-- The skills normalization of POST api/profile (src/unnamed/part_001
lines 71-73): an array is kept as is, a string is split on commas and
each piece trimmed. -/
def normalizeSkills : SkillsInput → List String
  | .str s => (splitCommaChars s.data).map (fun cs => ⟨trimChars cs⟩)
  | .arr l => l

/-- An upstream GitHub repository entry, opaque to the handler. -/
structure Repo where
  name : String
deriving Repr, DecidableEq

/-- Outcome of the single axios.get call: either data or any error
(network, rate limit, unknown user). -/
inductive UpstreamResult where
  | ok : List Repo → UpstreamResult
  | err : UpstreamResult
deriving Repr, DecidableEq

/-- The request uri built by GET api/profile/github/:username
(src/unnamed/part_001 lines 313-315): fixed query, page size 5,
sorted by creation ascending. -/
def githubRequestUri (username : String) : String :=
  "https://api.github.com/users/" ++ username ++
    "/repos?per_page=5&sort=created:asc"

/-- GET api/profile/github/:username (src/unnamed/part_001 lines
311-329). The handler performs the one upstream call on the fixed uri;
the catch block collapses every upstream failure to the single 404
response, embedded as NotFound. -/
def getGithubRepos (upstream : String → UpstreamResult)
    (username : String) : Except ApiError (List Repo) :=
  match upstream (githubRequestUri username) with
  | .ok repos => .ok repos
  | .err => .error .NotFound

/-- The uniqueness invariant on likes stated by the spec data model:
at most one like per user. -/
def postLikesUnique (p : Post) : Prop :=
  p.likes.Pairwise (fun a b => a.user ≠ b.user)

/-! ### Concrete fixtures used by witnesses -/

/-- A sample user. -/
def adaUser : User := ⟨7, "Ada", "a.png"⟩

/-- A sample post owned by user 7, with no likes and no comments. -/
def helloPost : Post := ⟨1, 7, "hello", "Ada", "a.png", [], []⟩

/-- A one-post store. -/
def posts0 : List Post := [helloPost]

/-- A sample comment by user 7. -/
def niceComment : Comment := ⟨4, 7, "nice", "Ada", "a.png"⟩

/-- The sample post carrying the sample comment. -/
def helloPostC : Post := ⟨1, 7, "hello", "Ada", "a.png", [], [niceComment]⟩

/-- A one-post store whose post has one comment. -/
def postsC : List Post := [helloPostC]

/-- A sample profile of user 7 with empty experience and education. -/
def devProfile : Profile := ⟨7, "Developer", [], "", [], []⟩

/-- An education body missing the required from field. -/
def eduNoFrom : EduBody :=
  ⟨some "MIT", some "BS", some "CS", none, none, none, none⟩

/-- An experience body missing the required from field. -/
def expNoFrom : ExpBody :=
  ⟨some "Dev", some "Acme", none, none, none, none, none⟩

/-- A sample experience entry with id 3. -/
def expEntry : Experience :=
  ⟨3, some "Dev", some "Acme", none, some "2020-01-01", none, none, none⟩

/-- A profile of user 7 holding the sample experience entry. -/
def devProfileExp : Profile := ⟨7, "Developer", [], "", [expEntry], []⟩

/-- A two-user database: user 1 has a profile and a post, user 2 only
a post. -/
def db0 : DB :=
  { users := [⟨1, "Ada", "a.png"⟩, ⟨2, "Bob", "b.png"⟩],
    profiles := [⟨1, "Dev", [], "", [], []⟩],
    posts := [⟨10, 1, "hi", "Ada", "a.png", [], []⟩,
              ⟨11, 2, "yo", "Bob", "b.png", [], []⟩] }

/-! ### Store lemmas -/

/-- After saving a post whose id is the one found, find? finds the
saved version. -/
lemma find?_savePost (posts : List Post) (post post' : Post) (postId : Nat)
    (hf : posts.find? (fun p => p.id = postId) = some post)
    (hid : post'.id = postId) :
    (savePost posts post').find? (fun p => p.id = postId) = some post' := by
  induction posts with
  | nil => simp [List.find?] at hf
  | cons a t ih =>
    by_cases h : a.id = postId
    · have ha : (if a.id = post'.id then post' else a) = post' := by
        rw [hid]; exact if_pos h
      simp only [savePost, List.map_cons, ha]
      exact List.find?_cons_of_pos _ (by simpa using hid)
    · rw [List.find?_cons_of_neg t (by simpa using h)] at hf
      have ha : (if a.id = post'.id then post' else a) = a := by
        rw [hid]; exact if_neg h
      simp only [savePost, List.map_cons, ha]
      rw [List.find?_cons_of_neg _ (by simpa using h)]
      exact ih hf

/-- Any member of the saved store is an old member or the saved doc. -/
lemma mem_savePost (posts : List Post) (p q : Post)
    (hq : q ∈ savePost posts p) : q ∈ posts ∨ q = p := by
  simp only [savePost, List.mem_map] at hq
  obtain ⟨r, hr, hrq⟩ := hq
  by_cases h : r.id = p.id
  · right; rw [← hrq]; simp [h]
  · left; rw [if_neg h] at hrq; rwa [hrq] at hr

/-- After saving a profile of the found user, find? finds the saved
version. -/
lemma find?_saveProfile (profiles : List Profile) (pr pr' : Profile)
    (c : UserId)
    (hf : profiles.find? (fun p => p.user = c) = some pr)
    (hu : pr'.user = c) :
    (saveProfile profiles pr').find? (fun p => p.user = c) = some pr' := by
  induction profiles with
  | nil => simp [List.find?] at hf
  | cons a t ih =>
    by_cases h : a.user = c
    · have ha : (if a.user = pr'.user then pr' else a) = pr' := by
        rw [hu]; exact if_pos h
      simp only [saveProfile, List.map_cons, ha]
      exact List.find?_cons_of_pos _ (by simpa using hu)
    · rw [List.find?_cons_of_neg t (by simpa using h)] at hf
      have ha : (if a.user = pr'.user then pr' else a) = a := by
        rw [hu]; exact if_neg h
      simp only [saveProfile, List.map_cons, ha]
      rw [List.find?_cons_of_neg _ (by simpa using h)]
      exact ih hf

/-- Saving the same profile twice is the same as saving it once. -/
lemma saveProfile_saveProfile (profiles : List Profile) (pr : Profile) :
    saveProfile (saveProfile profiles pr) pr = saveProfile profiles pr := by
  have hfun :
      ((fun q => if q.user = pr.user then pr else q) ∘
        (fun q => if q.user = pr.user then pr else q)) =
      (fun q : Profile => if q.user = pr.user then pr else q) := by
    funext q
    by_cases h : q.user = pr.user <;> simp [Function.comp, h]
  simp only [saveProfile, List.map_map, hfun]

/-- If a predicate holds for at most one element, removing the first
match leaves a list where it holds nowhere. -/
lemma eraseP_all_not {α : Type} (l : List α) (p : α → Bool)
    (h : l.countP p ≤ 1) : ∀ x ∈ l.eraseP p, ¬ p x := by
  induction l with
  | nil => simp
  | cons a t ih =>
    rw [List.eraseP_cons]
    by_cases hpa : p a
    · simp only [hpa, cond_true]
      rw [List.countP_cons] at h
      simp only [hpa, if_pos] at h
      have h0 : t.countP p = 0 := by omega
      exact fun x hx => List.countP_eq_zero.mp h0 x hx
    · simp only [Bool.of_not_eq_true hpa, cond_false]
      intro x hx
      rcases List.mem_cons.mp hx with hxa | hxe
      · rw [hxa]; exact hpa
      · refine ih ?_ x hxe
        rw [List.countP_cons] at h
        simp only [Bool.of_not_eq_true hpa, if_neg] at h
        omega

/-! ### Claim theorems -/

/-- C5: likePost fails with NotFound when the post is absent, fails
with Conflict when the caller already appears in the likes of the
post, and otherwise inserts the like of the caller at the front of the
likes sequence, the rest unchanged, and returns the likes. -/
theorem likePost_contract (posts : List Post) (c : UserId) (postId : Nat) :
    (posts.find? (fun p => p.id = postId) = none →
      likePost posts c postId = .error .NotFound)
    ∧ (∀ post, posts.find? (fun p => p.id = postId) = some post →
        (post.likes.any (fun l => l.user = c) = true →
          likePost posts c postId = .error .Conflict)
        ∧ (post.likes.any (fun l => l.user = c) = false →
          likePost posts c postId =
            .ok (savePost posts { post with likes := ⟨c⟩ :: post.likes },
              ⟨c⟩ :: post.likes))) := by
  refine ⟨fun hn => ?_, fun post hf => ⟨fun ha => ?_, fun ha => ?_⟩⟩
  · simp [likePost, hn]
  · simp [likePost, hf, ha]
  · simp [likePost, hf, ha]

/-- Witness for C5: liking the sample post as user 5 succeeds and puts
the new like at the front. -/
theorem likePost_contract_witness :
    likePost posts0 5 1 =
      .ok (savePost posts0 { helloPost with likes := ⟨5⟩ :: helloPost.likes },
        ⟨5⟩ :: helloPost.likes) :=
  ((likePost_contract posts0 5 1).2 helloPost (by decide)).2 (by decide)

/-- C4: for every post and for every comment of a post, a caller who
is not the owner gets Forbidden from deletePost respectively
deleteComment; both handlers answer before any store write, so the
store is untouched on that path by construction. -/
theorem delete_nonowner_forbidden (posts : List Post) (c : UserId)
    (postId : Nat) (post : Post)
    (hf : posts.find? (fun p => p.id = postId) = some post) :
    (post.user ≠ c → deletePost posts c postId = .error .Forbidden)
    ∧ (∀ commentId comment,
        post.comments.find? (fun cm => cm.id = commentId) = some comment →
        comment.user ≠ c →
        deleteComment posts c postId commentId = .error .Forbidden) := by
  refine ⟨fun hn => ?_, fun commentId comment hcf hn => ?_⟩
  · simp [deletePost, hf, hn]
  · simp [deleteComment, hf, hcf, hn]

/-- Witness for C4: user 9 owns neither the sample post nor its
comment and is refused both deletions. -/
theorem delete_nonowner_forbidden_witness :
    deletePost postsC 9 1 = .error .Forbidden
    ∧ deleteComment postsC 9 1 4 = .error .Forbidden :=
  ⟨(delete_nonowner_forbidden postsC 9 1 helloPostC (by decide)).1 (by decide),
    (delete_nonowner_forbidden postsC 9 1 helloPostC (by decide)).2 4
      niceComment (by decide) (by decide)⟩

/-- C10: addComment never checks that the post exists; with a
non-empty text and an absent postId, the null dereference is caught
and answered 500 (UnexpectedError, not NotFound) and the post store is
returned unchanged. -/
theorem addComment_no_existence_check (users : List User)
    (posts : List Post) (c : UserId) (postId : Nat) (text : Option String)
    (freshId : Nat) (htext : fieldMissing text = false)
    (habsent : posts.find? (fun p => p.id = postId) = none) :
    addComment users posts c postId text freshId =
      (.error .UnexpectedError, posts) := by
  cases hu : users.find? (fun u => u.id = c) with
  | none => simp [addComment, htext, hu]
  | some user => simp [addComment, htext, hu, habsent]

/-- Witness for C10: commenting on the absent post 42. -/
theorem addComment_no_existence_check_witness :
    addComment [adaUser] posts0 7 42 (some "hi") 0 =
      (.error .UnexpectedError, posts0) :=
  addComment_no_existence_check [adaUser] posts0 7 42 (some "hi") 0
    (by decide) (by decide)

/-- C1 (failing input for the claim): on a body whose from field is
missing, addExperience answers ValidationError and leaves the store
unchanged, but addEducation, whose validation branch sends the 400
without returning (src/unnamed/part_001 line 251), answers
ValidationError and STILL inserts the entry: the education sequence of
the stored profile grows from 0 to 1 entries. -/
theorem addEducation_validation_bug :
    (addExperience [devProfile] 7 expNoFrom 3).1 = .error .ValidationError
    ∧ (addExperience [devProfile] 7 expNoFrom 3).2 = [devProfile]
    ∧ (addEducation [devProfile] 7 eduNoFrom 3).1 = .error .ValidationError
    ∧ ((addEducation [devProfile] 7 eduNoFrom 3).2.map
        (fun p => p.education.length)) = [1] :=
  ⟨rfl, rfl, rfl, rfl⟩

/-- C8: the skills normalization of upsertProfile splits a string on
commas and trims every piece, and keeps a list as it is. -/
theorem skills_normalization :
    normalizeSkills (.str "js, node , react") = ["js", "node", "react"]
    ∧ ∀ l : List String, normalizeSkills (.arr l) = l :=
  ⟨by decide, fun l => rfl⟩

/-- C9: getGithubRepos performs its one upstream call on the fixed uri
with page size 5 sorted by creation ascending, and collapses every
upstream failure to the single NotFound answer. -/
theorem getGithubRepos_failure_collapse
    (upstream : String → UpstreamResult) (username : String)
    (herr : upstream (githubRequestUri username) = .err) :
    githubRequestUri username =
      "https://api.github.com/users/" ++ username ++
        "/repos?per_page=5&sort=created:asc"
    ∧ getGithubRepos upstream username = .error .NotFound :=
  ⟨rfl, by simp [getGithubRepos, herr]⟩

/-- Witness for C9: an upstream that always fails yields NotFound. -/
theorem getGithubRepos_failure_collapse_witness :
    getGithubRepos (fun _ => .err) "octocat" = .error .NotFound :=
  (getGithubRepos_failure_collapse (fun _ => UpstreamResult.err)
    "octocat" rfl).2

/-- C2: a second like of the same post by the same user fails with
Conflict, and like followed by unlike returns the likes of the post to
exactly their pre-like state. -/
theorem like_unlike_roundtrip (posts : List Post) (c : UserId)
    (postId : Nat) (post : Post) (posts1 : List Post) (likes1 : List Like)
    (hf : posts.find? (fun p => p.id = postId) = some post)
    (hl : likePost posts c postId = .ok (posts1, likes1)) :
    likePost posts1 c postId = .error .Conflict
    ∧ ∃ posts2, unlikePost posts1 c postId = .ok (posts2, post.likes)
        ∧ posts2.find? (fun p => p.id = postId) = some post := by
  have hid : post.id = postId := by simpa using List.find?_some hf
  by_cases ha : post.likes.any (fun l => l.user = c) = true
  · simp [likePost, hf, ha] at hl
  · have ha' : post.likes.any (fun l => l.user = c) = false :=
      Bool.of_not_eq_true ha
    simp [likePost, hf, ha'] at hl
    obtain ⟨hp1, -⟩ := hl
    have hfind1 : posts1.find? (fun p => p.id = postId) =
        some { post with likes := ⟨c⟩ :: post.likes } := by
      rw [← hp1]
      exact find?_savePost posts post _ postId hf hid
    have hmem : ∀ x ∈ post.likes, ¬ x.user = c := fun x hx => by
      simpa using List.any_eq_false.mp ha' x hx
    refine ⟨?_, savePost posts1 post, ?_, ?_⟩
    · simp [likePost, hfind1]
    · simp [unlikePost, hfind1]
      constructor
      · have hfl : post.likes.filter (fun l => !decide (l.user = c)) =
            post.likes := by
          apply List.filter_eq_self.mpr
          intro x hx
          simp [hmem x hx]
        rw [hfl]
      · exact hmem
    · exact find?_savePost posts1 { post with likes := ⟨c⟩ :: post.likes }
        post postId hfind1 hid

/-- Witness for C2: like then unlike on the sample store. -/
theorem like_unlike_roundtrip_witness :
    likePost (savePost posts0 { helloPost with likes := [⟨5⟩] }) 5 1 =
      .error .Conflict
    ∧ ∃ posts2,
        unlikePost (savePost posts0 { helloPost with likes := [⟨5⟩] }) 5 1 =
          .ok (posts2, helloPost.likes)
        ∧ posts2.find? (fun p => p.id = 1) = some helloPost :=
  like_unlike_roundtrip posts0 5 1 helloPost
    (savePost posts0 { helloPost with likes := [⟨5⟩] }) [⟨5⟩]
    (by decide) rfl

/-- C6: the at-most-one-like-per-user invariant on every stored post
is preserved by every successful likePost and unlikePost. -/
theorem likes_uniqueness_preserved (posts posts' : List Post) (c : UserId)
    (postId : Nat) (likes' : List Like)
    (hinv : ∀ p ∈ posts, postLikesUnique p) :
    (likePost posts c postId = .ok (posts', likes') →
      ∀ p ∈ posts', postLikesUnique p)
    ∧ (unlikePost posts c postId = .ok (posts', likes') →
      ∀ p ∈ posts', postLikesUnique p) := by
  constructor
  · intro h p hp
    cases hfind : posts.find? (fun q => q.id = postId) with
    | none => simp [likePost, hfind] at h
    | some post =>
      by_cases ha : post.likes.any (fun l => l.user = c) = true
      · simp [likePost, hfind, ha] at h
      · have ha' : post.likes.any (fun l => l.user = c) = false :=
          Bool.of_not_eq_true ha
        simp [likePost, hfind, ha'] at h
        obtain ⟨hps, -⟩ := h
        rw [← hps] at hp
        rcases mem_savePost posts _ p hp with hmem | hEq
        · exact hinv p hmem
        · rw [hEq]
          show List.Pairwise (fun a b => a.user ≠ b.user) (⟨c⟩ :: post.likes)
          rw [List.pairwise_cons]
          refine ⟨fun b hb => ?_,
            hinv post (List.mem_of_find?_eq_some hfind)⟩
          have hb' := List.any_eq_false.mp ha' b hb
          intro hcb
          exact hb' (by simp [← hcb])
  · intro h p hp
    cases hfind : posts.find? (fun q => q.id = postId) with
    | none => simp [unlikePost, hfind] at h
    | some post =>
      by_cases ha : post.likes.any (fun l => l.user = c) = true
      · simp [unlikePost, hfind, ha] at h
        obtain ⟨hps, -⟩ := h
        rw [← hps] at hp
        rcases mem_savePost posts _ p hp with hmem | hEq
        · exact hinv p hmem
        · rw [hEq]
          exact (hinv post (List.mem_of_find?_eq_some hfind)).sublist
            (List.filter_sublist _)
      · have ha' : post.likes.any (fun l => l.user = c) = false :=
          Bool.of_not_eq_true ha
        simp [unlikePost, hfind, ha'] at h

/-- Witness for C6: liking the sample post as user 5 keeps every
stored post free of duplicate likes. -/
theorem likes_uniqueness_preserved_witness :
    postLikesUnique { helloPost with likes := [⟨5⟩] } :=
  (likes_uniqueness_preserved posts0
      (savePost posts0 { helloPost with likes := [⟨5⟩] }) 5 1 [⟨5⟩]
      (fun p hp => by
        rcases List.mem_singleton.mp hp with rfl
        exact List.Pairwise.nil)).1 rfl
    { helloPost with likes := [⟨5⟩] } (by decide)

/-- C7: removeExperience keeps exactly the experience entries whose id
differs from the parameter; when no entry matches it returns the
profile unchanged, and running it a second time with the same id
changes nothing (idempotence). -/
theorem removeExperience_idempotent (profiles : List Profile) (c : UserId)
    (expId : Nat) (pr : Profile)
    (hf : profiles.find? (fun p => p.user = c) = some pr) :
    ∃ profiles' pr',
      removeExperience profiles c expId = .ok (profiles', pr')
      ∧ pr'.experience = pr.experience.filter (fun e => e.id ≠ expId)
      ∧ ((∀ e ∈ pr.experience, e.id ≠ expId) → pr' = pr)
      ∧ removeExperience profiles' c expId = .ok (profiles', pr') := by
  have hpru : pr.user = c := by simpa using List.find?_some hf
  refine ⟨saveProfile profiles
      { pr with experience := pr.experience.filter (fun e => e.id ≠ expId) },
    { pr with experience := pr.experience.filter (fun e => e.id ≠ expId) },
    ?_, rfl, ?_, ?_⟩
  · simp [removeExperience, hf]
  · intro hnone
    have hfe : pr.experience.filter (fun e => e.id ≠ expId) =
        pr.experience :=
      List.filter_eq_self.mpr (fun e he => by simpa using hnone e he)
    rw [hfe]
  · have hfind' : (saveProfile profiles
        { pr with
          experience := pr.experience.filter (fun e => e.id ≠ expId) }).find?
          (fun p => p.user = c) =
        some { pr with
          experience := pr.experience.filter (fun e => e.id ≠ expId) } :=
      find?_saveProfile profiles pr _ c hf hpru
    have hff : (pr.experience.filter (fun e => e.id ≠ expId)).filter
        (fun e => e.id ≠ expId) =
        pr.experience.filter (fun e => e.id ≠ expId) := by
      apply List.filter_eq_self.mpr
      intro e he
      exact (List.mem_filter.mp he).2
    simp only [removeExperience, hfind']
    rw [show ({ pr with
        experience := pr.experience.filter (fun e => e.id ≠ expId) } :
          Profile).experience.filter (fun e => e.id ≠ expId) =
        pr.experience.filter (fun e => e.id ≠ expId) from hff]
    rw [saveProfile_saveProfile]

/-- Witness for C7: removing entry 3, then removing it again. -/
theorem removeExperience_idempotent_witness :
    ∃ profiles' pr',
      removeExperience [devProfileExp] 7 3 = .ok (profiles', pr')
      ∧ pr'.experience = devProfileExp.experience.filter
          (fun e => e.id ≠ 3)
      ∧ ((∀ e ∈ devProfileExp.experience, e.id ≠ 3) → pr' = devProfileExp)
      ∧ removeExperience profiles' 7 3 = .ok (profiles', pr') :=
  removeExperience_idempotent [devProfileExp] 7 3 devProfileExp (by decide)

/-- C3: deleteMyProfile is the ordered composition delete-posts, then
delete-profile, then delete-user; afterwards no post, profile or user
of the caller remains and getProfileByUser on the caller fails with
NotFound. -/
theorem deleteMyProfile_cascade (db : DB) (c : UserId)
    (hp : db.profiles.countP (fun p => p.user = c) ≤ 1)
    (hu : db.users.countP (fun u => u.id = c) ≤ 1) :
    deleteMyProfile db c =
      { users := removeUserById c db.users,
        profiles := removeProfileOf c db.profiles,
        posts := deletePostsOf c db.posts }
    ∧ (∀ p ∈ (deleteMyProfile db c).posts, p.user ≠ c)
    ∧ (∀ pr ∈ (deleteMyProfile db c).profiles, pr.user ≠ c)
    ∧ (∀ u ∈ (deleteMyProfile db c).users, u.id ≠ c)
    ∧ getProfileByUser (deleteMyProfile db c).profiles c =
        .error .NotFound := by
  have hprof : ∀ pr ∈ (deleteMyProfile db c).profiles, ¬ pr.user = c := by
    intro pr hpr
    have hmem : pr ∈ db.profiles.eraseP (fun q => q.user = c) := hpr
    simpa using eraseP_all_not db.profiles _ hp pr hmem
  refine ⟨rfl, ?_, hprof, ?_, ?_⟩
  · intro p hp'
    have hmem : p ∈ db.posts.filter (fun q => q.user ≠ c) := hp'
    simpa using List.of_mem_filter hmem
  · intro u hu'
    have hmem : u ∈ db.users.eraseP (fun q => q.id = c) := hu'
    simpa using eraseP_all_not db.users _ hu u hmem
  · have hnone : (deleteMyProfile db c).profiles.find?
        (fun p => p.user = c) = none :=
      List.find?_eq_none.mpr (fun x hx => by simpa using hprof x hx)
    simp [getProfileByUser, hnone]

/-- Witness for C3: after user 1 deletes the account in the sample
database, the profile lookup fails with NotFound. -/
theorem deleteMyProfile_cascade_witness :
    getProfileByUser (deleteMyProfile db0 1).profiles 1 =
      .error .NotFound :=
  (deleteMyProfile_cascade db0 1 (by decide) (by decide)).2.2.2.2

end DevConnector
